import Mathlib

/-!
# Verification of the torchkge scoring/ranking core

Shallow embedding of `src/torchkge/models/interfaces.py`.

Conventions of the embedding:
* float tensors are modelled over an arbitrary `LinearOrderedCommRing` of scalars
  (theorems are stated for every such ring; concrete evaluations use `ℤ`);
* a tensor of shape `(B, d)` is a function `Fin B → Fin d → α`, a tensor of shape
  `(B, d, n)` is `Fin B → Fin d → Fin n → α`, and so on;
* the `float('Inf')` sentinel written into the filtered dissimilarities is `⊤` in
  `WithTop α`; its negation (the source ranks `-filt_dissimilarities`) is `⊥` in
  `WithBot α`;
* Python functions that can raise are embedded in `Except String`;
* `torchkge.utils` (`get_rank`, `get_true_targets`, the dissimilarity functions,
  `init_embedding`) is imported by the source file but is not part of the source tree,
  so those helpers are modelled from the spec; each such definition is marked
  `Modelled from the spec:` in its doc comment.
-/

open Finset

set_option linter.unusedSectionVars false

/-- Modelled from the spec: `torchkge.utils.get_rank` is imported by the source but its
definition is not in the source tree.  Spec §4.3 step 2: the rank of the true entity
among the scored candidates is `1 +` the number of candidates with a strictly higher
score (higher score means more plausible; the true candidate never counts against
itself). -/
def get_rank {n : ℕ} {β : Type} [LinearOrder β] (scores : Fin n → β) (t : Fin n) : ℕ :=
  1 + (Finset.univ.filter fun j => scores t < scores j).card

/-- Modelled from the spec: `torchkge.utils.get_true_targets` is imported by the source
but its definition is not in the source tree.  Spec §4.3 steps 3 and 5 and the §3
invariant: for sample `i` it returns the set of known-true completions of
`(e_idx i, r_idx i)` with the sample's own true target removed, `none` when the key is
absent from the index (filtering is then skipped) and also `none` when the true target
is not a member of the recorded set (spec §3: filtering is undefined there and must be
skipped, not erred). -/
def get_true_targets {B n : ℕ} (dictionary : Fin n × ℕ → Option (Finset (Fin n)))
    (e_idx : Fin B → Fin n) (r_idx : Fin B → ℕ) (true_idx : Fin B → Fin n) (i : Fin B) :
    Option (Finset (Fin n)) :=
  match dictionary (e_idx i, r_idx i) with
  | none => none
  | some s => if true_idx i ∈ s then some (s.erase (true_idx i)) else none

/-- Pointwise negation carrying the `+∞` dissimilarity sentinel to a `-∞` score: this is
the meaning of `-filt_dissimilarities` in the source's call
`get_rank(-filt_dissimilarities, true_idx)` (interfaces.py line 304). -/
def neg_ext {α : Type} [LinearOrderedCommRing α] (x : WithTop α) : WithBot α :=
  WithTop.recTopCoe ⊥ (fun q => ((-q : α) : WithBot α)) x

section TranslationModel

variable {α : Type} [LinearOrderedCommRing α]

/-- interfaces.py lines 287-288: `tmp_sum = (heads * proj_e_emb + r_emb)` viewed
`(B, d, 1)` and expanded along the candidate dimension (the expansion makes the value
independent of the candidate index). -/
def tm_tmp_sum {B d n : ℕ} (proj_e_emb r_emb : Fin B → Fin d → α) (heads : ℤ) :
    Fin B → Fin d → Fin n → α :=
  fun i k _ => (heads : α) * proj_e_emb i k + r_emb i k

/-- interfaces.py line 292: `dissimilarities = self.dissimilarity(tmp_sum, heads *
proj_candidates)`.  `self.dissimilarity` is the function stored by the constructor,
hence a parameter of the embedding. -/
def tm_dissimilarities {B d n : ℕ}
    (dissimilarity :
      (Fin B → Fin d → Fin n → α) → (Fin B → Fin d → Fin n → α) → (Fin B → Fin n → α))
    (proj_e_emb : Fin B → Fin d → α) (proj_candidates : Fin B → Fin d → Fin n → α)
    (r_emb : Fin B → Fin d → α) (heads : ℤ) : Fin B → Fin n → α :=
  dissimilarity (tm_tmp_sum proj_e_emb r_emb heads)
    (fun i k j => (heads : α) * proj_candidates i k j)

/-- interfaces.py lines 295-300: the clone of the dissimilarity matrix in which, for
every sample `i` whose true targets are found, `filt_dissimilarities[i][true_targets] =
float('Inf')`. -/
def filt_dissimilarities {B n : ℕ} (dmat : Fin B → Fin n → α)
    (dictionary : Fin n × ℕ → Option (Finset (Fin n)))
    (e_idx : Fin B → Fin n) (r_idx : Fin B → ℕ) (true_idx : Fin B → Fin n) :
    Fin B → Fin n → WithTop α :=
  fun i j =>
    match get_true_targets dictionary e_idx r_idx true_idx i with
    | none => (dmat i j : WithTop α)
    | some s => if j ∈ s then ⊤ else (dmat i j : WithTop α)

/-- `TranslationModel.compute_ranks` (interfaces.py lines 248-306): computes the
dissimilarity of `heads * proj_e_emb + r_emb` against `heads * proj_candidates`, masks
the other known-true completions with `Inf`, and extracts
`get_rank(-dissimilarities, true_idx)` and `get_rank(-filt_dissimilarities, true_idx)`. -/
def tm_compute_ranks {B d n : ℕ}
    (dissimilarity :
      (Fin B → Fin d → Fin n → α) → (Fin B → Fin d → Fin n → α) → (Fin B → Fin n → α))
    (proj_e_emb : Fin B → Fin d → α) (proj_candidates : Fin B → Fin d → Fin n → α)
    (r_emb : Fin B → Fin d → α) (e_idx : Fin B → Fin n) (r_idx : Fin B → ℕ)
    (true_idx : Fin B → Fin n) (dictionary : Fin n × ℕ → Option (Finset (Fin n)))
    (heads : ℤ) : (Fin B → ℕ) × (Fin B → ℕ) :=
  let dissimilarities :=
    tm_dissimilarities dissimilarity proj_e_emb proj_candidates r_emb heads
  let filt := filt_dissimilarities dissimilarities dictionary e_idx r_idx true_idx
  (fun i => get_rank (fun j => -(dissimilarities i j)) (true_idx i),
   fun i => get_rank (fun j => neg_ext (filt i j)) (true_idx i))

/-- Modelled from the spec: `torchkge.utils.l1_dissimilarity` is imported by the source
but not in the source tree; the spec (§4.1, glossary) says L1 distance.  On two
`(B, d, n)` tensors it reduces along the embedding dimension. -/
def l1_dissimilarity {B d n : ℕ} (a b : Fin B → Fin d → Fin n → α) :
    Fin B → Fin n → α :=
  fun i j => ∑ k, |a i k j - b i k j|

end TranslationModel

section RankLemmas

variable {α : Type} [LinearOrderedCommRing α]

theorem get_rank_one_le {n : ℕ} {β : Type} [LinearOrder β] (scores : Fin n → β)
    (t : Fin n) : 1 ≤ get_rank scores t :=
  Nat.le_add_right 1 _

theorem get_rank_le {n : ℕ} {β : Type} [LinearOrder β] (scores : Fin n → β)
    (t : Fin n) : get_rank scores t ≤ n := by
  have hsub : (Finset.univ.filter fun j => scores t < scores j) ⊆ Finset.univ.erase t := by
    intro j hj
    rcases Finset.mem_filter.mp hj with ⟨-, hlt⟩
    refine Finset.mem_erase.mpr ⟨?_, Finset.mem_univ j⟩
    intro heq
    exact absurd hlt (by simp [heq])
  have hcard : (Finset.univ.filter fun j => scores t < scores j).card ≤ n - 1 := by
    have := Finset.card_le_card hsub
    simpa [Finset.card_erase_of_mem (Finset.mem_univ t)] using this
  have hn : 1 ≤ n := t.pos
  unfold get_rank
  omega

theorem neg_ext_coe (q : α) : neg_ext (q : WithTop α) = ((-q : α) : WithBot α) := rfl

theorem neg_ext_top : neg_ext (⊤ : WithTop α) = (⊥ : WithBot α) := rfl

/-- The filtered dissimilarity at the sample's own true target always keeps the raw
value: `get_true_targets` never returns a set containing the true target. -/
theorem filt_dissimilarities_true_eq {B n : ℕ} (dmat : Fin B → Fin n → α)
    (dictionary : Fin n × ℕ → Option (Finset (Fin n)))
    (e_idx : Fin B → Fin n) (r_idx : Fin B → ℕ) (true_idx : Fin B → Fin n) (i : Fin B) :
    filt_dissimilarities dmat dictionary e_idx r_idx true_idx i (true_idx i) =
      (dmat i (true_idx i) : WithTop α) := by
  unfold filt_dissimilarities get_true_targets
  rcases hdict : dictionary (e_idx i, r_idx i) with - | s
  · simp
  · by_cases hmem : true_idx i ∈ s
    · simp [hmem, Finset.not_mem_erase]
    · simp [hmem]

/-- Every filtered entry is either the raw entry or the `Inf` sentinel. -/
theorem filt_dissimilarities_cases {B n : ℕ} (dmat : Fin B → Fin n → α)
    (dictionary : Fin n × ℕ → Option (Finset (Fin n)))
    (e_idx : Fin B → Fin n) (r_idx : Fin B → ℕ) (true_idx : Fin B → Fin n)
    (i : Fin B) (j : Fin n) :
    filt_dissimilarities dmat dictionary e_idx r_idx true_idx i j =
        (dmat i j : WithTop α) ∨
      filt_dissimilarities dmat dictionary e_idx r_idx true_idx i j = ⊤ := by
  unfold filt_dissimilarities
  rcases get_true_targets dictionary e_idx r_idx true_idx i with - | s
  · exact Or.inl rfl
  · by_cases hmem : j ∈ s
    · exact Or.inr (by simp [hmem])
    · exact Or.inl (by simp [hmem])

/-- Core comparison: the filtered rank never exceeds the raw rank, because masking
candidates with `Inf` (score `-∞`) can only shrink the set of candidates that beat the
true target, whose own entry keeps its raw value. -/
theorem filt_rank_le_rank {B n : ℕ} (dmat : Fin B → Fin n → α)
    (dictionary : Fin n × ℕ → Option (Finset (Fin n)))
    (e_idx : Fin B → Fin n) (r_idx : Fin B → ℕ) (true_idx : Fin B → Fin n) (i : Fin B) :
    get_rank
        (fun j => neg_ext (filt_dissimilarities dmat dictionary e_idx r_idx true_idx i j))
        (true_idx i) ≤
      get_rank (fun j => -(dmat i j)) (true_idx i) := by
  unfold get_rank
  have hsub :
      (Finset.univ.filter fun j =>
          neg_ext (filt_dissimilarities dmat dictionary e_idx r_idx true_idx i (true_idx i)) <
            neg_ext (filt_dissimilarities dmat dictionary e_idx r_idx true_idx i j)) ⊆
        Finset.univ.filter fun j => -(dmat i (true_idx i)) < -(dmat i j) := by
    intro j hj
    rcases Finset.mem_filter.mp hj with ⟨-, hlt⟩
    rw [filt_dissimilarities_true_eq, neg_ext_coe] at hlt
    refine Finset.mem_filter.mpr ⟨Finset.mem_univ j, ?_⟩
    rcases filt_dissimilarities_cases dmat dictionary e_idx r_idx true_idx i j with hc | hc
    · rw [hc, neg_ext_coe] at hlt
      exact_mod_cast hlt
    · rw [hc, neg_ext_top] at hlt
      exact absurd hlt (not_lt_bot)
  exact Nat.add_le_add_left (Finset.card_le_card hsub) 1

end RankLemmas

section BilinearModel

variable {α : Type} [LinearOrderedCommRing α]

/-- An argument of `BilinearModel.compute_product`: either a `(B, d)` batch of entity
vectors (`len(shape) == 2` in the source's dispatch) or a `(B, n, d)` batch of
candidate matrices (`len(shape) == 3`). -/
inductive ETensor (α : Type) (B d n : ℕ) where
  | vec (v : Fin B → Fin d → α)
  | cand (m : Fin B → Fin n → Fin d → α)

/-- A result of `BilinearModel.compute_product`: shape `(B)` or `(B, n)`. -/
inductive PTensor (α : Type) (B n : ℕ) where
  | scal (v : Fin B → α)
  | cands (m : Fin B → Fin n → α)

/-- interfaces.py line 395: `t = t.view(b_size, emb_dim, 1)`.  A `(B, d)` tensor
reshapes to `(B, d, 1)`; a `(B, n, d)` tensor only has the required element count when
`n = 1`, otherwise `view` raises. -/
def view_b_d_1 {B d n : ℕ} : ETensor α B d n → Except String (Fin B → Fin d → α)
  | .vec t => .ok t
  | .cand t =>
      if h : n = 1 then .ok (fun i k => t i (Fin.cast h.symm 0) k)
      else .error "RuntimeError: shape invalid for input size"

/-- `BilinearModel.compute_product` (interfaces.py lines 361-396): the batched product
`h^t R t`, dispatching on which side is the all-candidates tensor:
* both `(B, d)`: `(matmul(h.view(B,1,d), r).view(B,d) * t).sum(dim=1)`;
* `t` of shape `(B, n, d)`: `(matmul(h, r).view(B,d,1) * t.transpose(1,2)).sum(dim=1)`;
* otherwise (head-completion): `matmul(matmul(h, r), t.view(B,d,1)).view(B, -1)`. -/
def compute_product {B d n : ℕ} (h t : ETensor α B d n)
    (r : Fin B → Fin d → Fin d → α) : Except String (PTensor α B n) :=
  match h, t with
  | .vec hv, .vec tv =>
      .ok (.scal fun i => ∑ k, (∑ a, hv i a * r i a k) * tv i k)
  | .vec hv, .cand tc =>
      .ok (.cands fun i j => ∑ k, (∑ a, hv i a * r i a k) * tc i j k)
  | .cand hc, t2 => do
      let tv ← view_b_d_1 t2
      .ok (.cands fun i j => ∑ k, (∑ a, hc i j a * r i a k) * tv i k)

/-- Extract the `(B, n)` matrix of a candidate-scoring `compute_product` result. -/
def as_cands {B n : ℕ} : PTensor α B n → Except String (Fin B → Fin n → α)
  | .cands m => .ok m
  | .scal _ => .error "RuntimeError: unexpected scalar scores"

/-- An argument passed to Python `range`: either an integer or a `torch.Size` tuple
(the type of `tensor.shape`). -/
inductive PyRangeArg where
  | int (b : ℕ)
  | size (dims : List ℕ)

/-- Python `range`: accepts an integer bound; applied to a tuple such as `torch.Size`
it raises `TypeError`. -/
def pyRange : PyRangeArg → Except String (List ℕ)
  | .int b => .ok (List.range b)
  | .size _ => .error "TypeError: torch.Size object cannot be interpreted as an integer"

/-- `BilinearModel.compute_ranks` (interfaces.py lines 410-464).  Line 445 binds
`current_batch_size = r_idx.shape` — the size tuple `(B,)`, not the integer `B` — and
line 454 iterates `for i in range(current_batch_size)`, so execution raises `TypeError`
there: after the scores are computed, before any rank is produced.  The loop body and
the final `get_rank` extraction (lines 455-463) are translated below the raising point
for completeness but are unreachable. -/
def bm_compute_ranks {B d n : ℕ} (e_emb : Fin B → Fin d → α)
    (candidates : Fin B → Fin n → Fin d → α) (r : Fin B → Fin d → Fin d → α)
    (e_idx : Fin B → Fin n) (r_idx : Fin B → ℕ) (true_idx : Fin B → Fin n)
    (dictionary : Fin n × ℕ → Option (Finset (Fin n)))
    (heads : ℤ) : Except String ((Fin B → ℕ) × (Fin B → ℕ)) := do
  let current_batch_size : PyRangeArg := .size [B]
  let scoresT ←
    if heads = 1 then compute_product (.vec e_emb) (.cand candidates) r
    else compute_product (.cand candidates) (.vec e_emb) r
  let scores ← as_cands scoresT
  let loop_idx ← pyRange current_batch_size
  let filt_scores := loop_idx.foldl
    (fun fs iv =>
      if hiv : iv < B then
        let i : Fin B := ⟨iv, hiv⟩
        match get_true_targets dictionary e_idx r_idx true_idx i with
        | none => fs
        | some s => fun i2 j => if i2 = i ∧ j ∈ s then (-1 : α) else fs i2 j
      else fs)
    scores
  return (fun i => get_rank (fun j => scores i j) (true_idx i),
          fun i => get_rank (fun j => filt_scores i j) (true_idx i))

/-- `BilinearModel.compute_ranks` always raises the `TypeError` coming from
`range(r_idx.shape)`, for every input. -/
theorem bm_compute_ranks_eq_error {B d n : ℕ} (e_emb : Fin B → Fin d → α)
    (candidates : Fin B → Fin n → Fin d → α) (r : Fin B → Fin d → Fin d → α)
    (e_idx : Fin B → Fin n) (r_idx : Fin B → ℕ) (true_idx : Fin B → Fin n)
    (dictionary : Fin n × ℕ → Option (Finset (Fin n))) (heads : ℤ) :
    bm_compute_ranks e_emb candidates r e_idx r_idx true_idx dictionary heads =
      .error "TypeError: torch.Size object cannot be interpreted as an integer" := by
  unfold bm_compute_ranks
  by_cases h1 : heads = 1 <;>
    simp [h1, compute_product, view_b_d_1, as_cands, pyRange, bind, Except.bind]

end BilinearModel

section BilinearProductSpec

variable {α : Type} [LinearOrderedCommRing α]

/-- The explicit per-sample bilinear form `h^t R t = ∑ a, ∑ k, h a * R a k * t k`,
written from the spec's words (§8, bilinear product dispatch) for comparison with the
source's batched `compute_product`. -/
def hRt {d : ℕ} (hv tv : Fin d → α) (rm : Fin d → Fin d → α) : α :=
  ∑ a, ∑ k, hv a * rm a k * tv k

theorem sum_matmul_eq_hRt {d : ℕ} (hv tv : Fin d → α) (rm : Fin d → Fin d → α) :
    ∑ k, (∑ a, hv a * rm a k) * tv k = hRt hv tv rm := by
  unfold hRt
  calc ∑ k, (∑ a, hv a * rm a k) * tv k
      = ∑ k, ∑ a, hv a * rm a k * tv k :=
        Finset.sum_congr rfl fun k _ => Finset.sum_mul _ _ _
    _ = ∑ a, ∑ k, hv a * rm a k * tv k := Finset.sum_comm

theorem compute_product_vec_vec {B d n : ℕ} (hv tv : Fin B → Fin d → α)
    (r : Fin B → Fin d → Fin d → α) :
    compute_product (n := n) (.vec hv) (.vec tv) r =
      .ok (.scal fun i => hRt (hv i) (tv i) (r i)) := by
  show Except.ok (PTensor.scal fun i => ∑ k, (∑ a, hv i a * r i a k) * tv i k) = _
  have hfun : (fun i => ∑ k, (∑ a, hv i a * r i a k) * tv i k) =
      fun i => hRt (hv i) (tv i) (r i) :=
    funext fun i => sum_matmul_eq_hRt (hv i) (tv i) (r i)
  rw [hfun]

theorem compute_product_vec_cand {B d n : ℕ} (hv : Fin B → Fin d → α)
    (tc : Fin B → Fin n → Fin d → α) (r : Fin B → Fin d → Fin d → α) :
    compute_product (.vec hv) (.cand tc) r =
      .ok (.cands fun i j => hRt (hv i) (tc i j) (r i)) := by
  show Except.ok (PTensor.cands fun i j => ∑ k, (∑ a, hv i a * r i a k) * tc i j k) = _
  have hfun : (fun i j => ∑ k, (∑ a, hv i a * r i a k) * tc i j k) =
      fun i j => hRt (hv i) (tc i j) (r i) :=
    funext fun i => funext fun j => sum_matmul_eq_hRt (hv i) (tc i j) (r i)
  rw [hfun]

theorem compute_product_cand_vec {B d n : ℕ} (hc : Fin B → Fin n → Fin d → α)
    (tv : Fin B → Fin d → α) (r : Fin B → Fin d → Fin d → α) :
    compute_product (.cand hc) (.vec tv) r =
      .ok (.cands fun i j => hRt (hc i j) (tv i) (r i)) := by
  show (do
      let t2 ← view_b_d_1 (ETensor.vec tv)
      Except.ok (PTensor.cands fun i j => ∑ k, (∑ a, hc i j a * r i a k) * t2 i k)) = _
  have hfun : (fun i j => ∑ k, (∑ a, hc i j a * r i a k) * tv i k) =
      fun i j => hRt (hc i j) (tv i) (r i) :=
    funext fun i => funext fun j => sum_matmul_eq_hRt (hc i j) (tv i) (r i)
  simp [view_b_d_1, bind, Except.bind, hfun]

end BilinearProductSpec

section Evaluator

variable {α : Type} [LinearOrderedCommRing α]

/-- The per-graph filtering indices read by `Model.evaluate_candidates`
(interfaces.py lines 188, 194): `dict_of_tails` keyed by (head, relation) and
`dict_of_heads` keyed by (tail, relation). -/
structure KGIndex (n : ℕ) where
  dict_of_heads : Fin n × ℕ → Option (Finset (Fin n))
  dict_of_tails : Fin n × ℕ → Option (Finset (Fin n))

/-- `Model.evaluate_candidates` (interfaces.py lines 152-197).  `evaluation_helper` and
`compute_ranks` are abstract methods resolved by dynamic dispatch on the concrete
subclass, hence parameters of the embedding.  The helper is invoked once; its
candidate tensor and relation embeddings are reused by both `compute_ranks` calls. -/
def evaluate_candidates {B d n : ℕ}
    (evaluation_helper : (Fin B → Fin n) → (Fin B → Fin n) → (Fin B → ℕ) →
      (Fin B → Fin d → α) × (Fin B → Fin d → α) × (Fin B → Fin d → Fin n → α) ×
        (Fin B → Fin d → α))
    (compute_ranks : (Fin B → Fin d → α) → (Fin B → Fin d → Fin n → α) →
      (Fin B → Fin d → α) → (Fin B → Fin n) → (Fin B → ℕ) → (Fin B → Fin n) →
      (Fin n × ℕ → Option (Finset (Fin n))) → ℤ → (Fin B → ℕ) × (Fin B → ℕ))
    (h_idx t_idx : Fin B → Fin n) (r_idx : Fin B → ℕ) (kg : KGIndex n) :
    (Fin B → ℕ) × (Fin B → ℕ) × (Fin B → ℕ) × (Fin B → ℕ) :=
  match evaluation_helper h_idx t_idx r_idx with
  | (proj_h_emb, proj_t_emb, candidates, r_emb) =>
    let tails_result :=
      compute_ranks proj_h_emb candidates r_emb h_idx r_idx t_idx kg.dict_of_tails 1
    let heads_result :=
      compute_ranks proj_t_emb candidates r_emb t_idx r_idx h_idx kg.dict_of_heads (-1)
    (tails_result.1, tails_result.2, heads_result.1, heads_result.2)

end Evaluator

section TranslationRankFacts

variable {α : Type} [LinearOrderedCommRing α]

theorem tm_compute_ranks_fst {B d n : ℕ}
    (dissimilarity :
      (Fin B → Fin d → Fin n → α) → (Fin B → Fin d → Fin n → α) → (Fin B → Fin n → α))
    (proj_e_emb : Fin B → Fin d → α) (proj_candidates : Fin B → Fin d → Fin n → α)
    (r_emb : Fin B → Fin d → α) (e_idx : Fin B → Fin n) (r_idx : Fin B → ℕ)
    (true_idx : Fin B → Fin n) (dictionary : Fin n × ℕ → Option (Finset (Fin n)))
    (heads : ℤ) :
    (tm_compute_ranks dissimilarity proj_e_emb proj_candidates r_emb e_idx r_idx
        true_idx dictionary heads).1 =
      fun i => get_rank
        (fun j => -(tm_dissimilarities dissimilarity proj_e_emb proj_candidates r_emb
          heads i j)) (true_idx i) := rfl

theorem tm_compute_ranks_snd {B d n : ℕ}
    (dissimilarity :
      (Fin B → Fin d → Fin n → α) → (Fin B → Fin d → Fin n → α) → (Fin B → Fin n → α))
    (proj_e_emb : Fin B → Fin d → α) (proj_candidates : Fin B → Fin d → Fin n → α)
    (r_emb : Fin B → Fin d → α) (e_idx : Fin B → Fin n) (r_idx : Fin B → ℕ)
    (true_idx : Fin B → Fin n) (dictionary : Fin n × ℕ → Option (Finset (Fin n)))
    (heads : ℤ) :
    (tm_compute_ranks dissimilarity proj_e_emb proj_candidates r_emb e_idx r_idx
        true_idx dictionary heads).2 =
      fun i => get_rank
        (fun j => neg_ext (filt_dissimilarities
          (tm_dissimilarities dissimilarity proj_e_emb proj_candidates r_emb heads)
          dictionary e_idx r_idx true_idx i j)) (true_idx i) := rfl

/-- Two score vectors whose comparisons against the true entry agree produce the same
rank. -/
theorem get_rank_congr {n : ℕ} {β γ : Type} [LinearOrder β] [LinearOrder γ]
    (s1 : Fin n → β) (s2 : Fin n → γ) (t : Fin n)
    (h : ∀ j, s1 t < s1 j ↔ s2 t < s2 j) : get_rank s1 t = get_rank s2 t := by
  unfold get_rank
  rw [Finset.filter_congr fun j _ => h j]

/-- The negated-score rank of a dissimilarity row is one plus the number of candidates
with strictly lower dissimilarity than the true candidate. -/
theorem get_rank_neg_eq {n : ℕ} (row : Fin n → α) (t : Fin n) :
    get_rank (fun j => -(row j)) t =
      1 + (Finset.univ.filter fun j => row j < row t).card := by
  unfold get_rank
  have h : (Finset.univ.filter fun j => -(row t) < -(row j)) =
      Finset.univ.filter fun j => row j < row t :=
    Finset.filter_congr fun j _ => neg_lt_neg_iff
  rw [h]

/-- The raw rank produced by the translational `compute_ranks` is one plus the number
of candidates with strictly lower dissimilarity than the true candidate. -/
theorem tm_raw_rank_eq {B d n : ℕ}
    (dissimilarity :
      (Fin B → Fin d → Fin n → α) → (Fin B → Fin d → Fin n → α) → (Fin B → Fin n → α))
    (proj_e_emb : Fin B → Fin d → α) (proj_candidates : Fin B → Fin d → Fin n → α)
    (r_emb : Fin B → Fin d → α) (e_idx : Fin B → Fin n) (r_idx : Fin B → ℕ)
    (true_idx : Fin B → Fin n) (dictionary : Fin n × ℕ → Option (Finset (Fin n)))
    (heads : ℤ) (i : Fin B) :
    (tm_compute_ranks dissimilarity proj_e_emb proj_candidates r_emb e_idx r_idx
        true_idx dictionary heads).1 i =
      1 + (Finset.univ.filter fun j =>
        tm_dissimilarities dissimilarity proj_e_emb proj_candidates r_emb heads i j <
          tm_dissimilarities dissimilarity proj_e_emb proj_candidates r_emb heads i
            (true_idx i)).card := by
  rw [tm_compute_ranks_fst]
  exact get_rank_neg_eq _ _

/-- When the key of sample `i` is absent from the dictionary, `get_true_targets`
returns `None`. -/
theorem get_true_targets_eq_none {B n : ℕ}
    (dictionary : Fin n × ℕ → Option (Finset (Fin n)))
    (e_idx : Fin B → Fin n) (r_idx : Fin B → ℕ) (true_idx : Fin B → Fin n) (i : Fin B)
    (hdict : dictionary (e_idx i, r_idx i) = none) :
    get_true_targets dictionary e_idx r_idx true_idx i = none := by
  unfold get_true_targets
  simp [hdict]

/-- With an absent key the filtered dissimilarities of sample `i` coincide with the raw
ones, so the filtered rank equals the raw rank: filtering degrades gracefully. -/
theorem tm_filtered_rank_eq_raw_of_none {B d n : ℕ}
    (dissimilarity :
      (Fin B → Fin d → Fin n → α) → (Fin B → Fin d → Fin n → α) → (Fin B → Fin n → α))
    (proj_e_emb : Fin B → Fin d → α) (proj_candidates : Fin B → Fin d → Fin n → α)
    (r_emb : Fin B → Fin d → α) (e_idx : Fin B → Fin n) (r_idx : Fin B → ℕ)
    (true_idx : Fin B → Fin n) (dictionary : Fin n × ℕ → Option (Finset (Fin n)))
    (heads : ℤ) (i : Fin B)
    (hdict : dictionary (e_idx i, r_idx i) = none) :
    (tm_compute_ranks dissimilarity proj_e_emb proj_candidates r_emb e_idx r_idx
        true_idx dictionary heads).2 i =
      (tm_compute_ranks dissimilarity proj_e_emb proj_candidates r_emb e_idx r_idx
        true_idx dictionary heads).1 i := by
  have hnone := get_true_targets_eq_none dictionary e_idx r_idx true_idx i hdict
  rw [tm_compute_ranks_fst, tm_compute_ranks_snd]
  apply get_rank_congr
  intro j
  unfold filt_dissimilarities
  rw [hnone]
  simp only [neg_ext_coe]
  exact WithBot.coe_lt_coe

/-- The filtered rank of sample `i` only reads the dissimilarities of the candidates
that survive the mask: two dissimilarity matrices that agree outside the masked set
produce the same filtered rank. -/
theorem tm_filtered_rank_invariant {B n : ℕ} (dmat dmat2 : Fin B → Fin n → α)
    (dictionary : Fin n × ℕ → Option (Finset (Fin n)))
    (e_idx : Fin B → Fin n) (r_idx : Fin B → ℕ) (true_idx : Fin B → Fin n) (i : Fin B)
    (hagree : ∀ j, j ∉ (get_true_targets dictionary e_idx r_idx true_idx i).getD ∅ →
      dmat i j = dmat2 i j) :
    get_rank
        (fun j => neg_ext (filt_dissimilarities dmat dictionary e_idx r_idx true_idx i j))
        (true_idx i) =
      get_rank
        (fun j => neg_ext (filt_dissimilarities dmat2 dictionary e_idx r_idx true_idx i j))
        (true_idx i) := by
  have hpt : ∀ j, filt_dissimilarities dmat dictionary e_idx r_idx true_idx i j =
      filt_dissimilarities dmat2 dictionary e_idx r_idx true_idx i j := by
    intro j
    unfold filt_dissimilarities
    rcases hg : get_true_targets dictionary e_idx r_idx true_idx i with - | s
    · have h := hagree j (by simp [hg])
      simp [h]
    · by_cases hmem : j ∈ s
      · simp [hmem]
      · have h := hagree j (by simp [hg, hmem])
        simp [hmem, h]
  apply get_rank_congr
  intro j
  rw [hpt j, hpt (true_idx i)]

/-- When the key of sample `i` is present and honours the spec §3 invariant, the
filtered dissimilarity vector is exactly the raw vector with every *other* known-true
completion replaced by the `Inf` sentinel. -/
theorem tm_filt_eq_masked_copy {B n : ℕ} (dmat : Fin B → Fin n → α)
    (dictionary : Fin n × ℕ → Option (Finset (Fin n)))
    (e_idx : Fin B → Fin n) (r_idx : Fin B → ℕ) (true_idx : Fin B → Fin n) (i : Fin B)
    (s : Finset (Fin n)) (hdict : dictionary (e_idx i, r_idx i) = some s)
    (hmem : true_idx i ∈ s) (j : Fin n) :
    filt_dissimilarities dmat dictionary e_idx r_idx true_idx i j =
      if j ∈ s.erase (true_idx i) then ⊤ else (dmat i j : WithTop α) := by
  unfold filt_dissimilarities get_true_targets
  simp [hdict, hmem]

end TranslationRankFacts

section CandidateGenerator

variable {α : Type} [LinearOrderedCommRing α]

/-- The semantics of `.transpose(0, 1)` on the `(n_ent, ent_emb_dim)` entity table: a
`(ent_emb_dim, n_ent)` matrix (the row count is forced to `ent_emb_dim`, as the
subsequent `view((1, ent_emb_dim, n_ent))` requires). -/
def transpose_0_1 (entity_embeddings : List (List α)) (ent_emb_dim : ℕ) :
    List (List α) :=
  (List.range ent_emb_dim).map fun k => entity_embeddings.map fun row => row.getD k 0

/-- `TranslationModel.recover_candidates` (interfaces.py lines 308-333): looks up the
whole entity table (`arange(0, n_ent)` indexes every row), transposes it to
`(ent_emb_dim, n_ent)` and broadcasts it across the batch with
`view((1, ent_emb_dim, n_ent)).expand((b_size, ent_emb_dim, n_ent))`. -/
def recover_candidates (entity_embeddings : List (List α)) (ent_emb_dim b_size : ℕ) :
    List (List (List α)) :=
  let candidates := transpose_0_1 entity_embeddings ent_emb_dim
  List.replicate b_size candidates

/-- `BilinearModel.get_head_tail_candidates` (interfaces.py lines 398-408):
`b_size = h_idx.shape[0]`; broadcasts the entity table `(n_ent, emb_dim)` across the
batch with `view(1, n_ent, emb_dim).expand(b_size, n_ent, emb_dim)` and looks up the
head and tail embeddings of the current batch. -/
def get_head_tail_candidates (ent_emb : List (List α)) (h_idx t_idx : List ℕ) :
    List (List α) × List (List α) × List (List (List α)) :=
  let b_size := h_idx.length
  let candidates := List.replicate b_size ent_emb
  let h_emb := h_idx.map fun i => ent_emb.getD i []
  let t_emb := t_idx.map fun i => ent_emb.getD i []
  (h_emb, t_emb, candidates)

theorem transpose_0_1_length (entity_embeddings : List (List α)) (ent_emb_dim : ℕ) :
    (transpose_0_1 entity_embeddings ent_emb_dim).length = ent_emb_dim := by
  unfold transpose_0_1
  simp

theorem transpose_0_1_row_length (entity_embeddings : List (List α)) (ent_emb_dim : ℕ)
    (col : List α) (hcol : col ∈ transpose_0_1 entity_embeddings ent_emb_dim) :
    col.length = entity_embeddings.length := by
  unfold transpose_0_1 at hcol
  rcases List.mem_map.mp hcol with ⟨k, -, hk⟩
  simp [← hk]

theorem transpose_0_1_entry (entity_embeddings : List (List α)) (ent_emb_dim : ℕ)
    (k j : ℕ) (hk : k < ent_emb_dim) (hj : j < entity_embeddings.length) :
    ((transpose_0_1 entity_embeddings ent_emb_dim).getD k []).getD j 0 =
      (entity_embeddings.getD j []).getD k 0 := by
  unfold transpose_0_1
  have h1 : (List.map (fun k => entity_embeddings.map fun row => row.getD k 0)
      (List.range ent_emb_dim)).getD k [] =
      entity_embeddings.map fun row => row.getD k 0 := by
    simp [List.getD_eq_getElem?_getD, List.getElem?_range hk]
  rw [h1]
  have h2 : entity_embeddings[j]? = some entity_embeddings[j] :=
    List.getElem?_eq_getElem hj
  simp [List.getD_eq_getElem?_getD, h2]

end CandidateGenerator

section Construction

/-- The attribute state set by `Model.__init__` (interfaces.py lines 32-35). -/
structure ModelState where
  n_ent : ℤ
  n_rel : ℤ

/-- `Model.__init__` (interfaces.py lines 32-35) as a Python callable: it accepts
exactly two positional arguments after `self` and stores them; any other call raises
`TypeError`. -/
def Model_init (args : List ℤ) : Except String ModelState :=
  match args with
  | [n_entities, n_relations] => .ok ⟨n_entities, n_relations⟩
  | _ => .error "TypeError: wrong number of arguments for Model.__init__"

/-- The dissimilarity selected by the translational constructor. -/
inductive DissimKind where
  | L1
  | L2

/-- Modelled from the spec: `torchkge.utils.init_embedding` is imported by the source
but not in the source tree; per the spec (§2 Embedding Store, §3 lifecycle) it builds a
dense `num × dim` embedding table.  Its random contents are irrelevant to every claim,
so the embedding records the requested dimensions. -/
structure EmbeddingTable where
  num : ℤ
  dim : ℤ

def init_embedding (num dim : ℤ) : EmbeddingTable := ⟨num, dim⟩

/-- The attribute state a successful `TranslationModel.__init__` would produce
(interfaces.py lines 223-234). -/
structure TranslationModelState where
  base : ModelState
  entity_embeddings : EmbeddingTable
  dissimilarity : Option DissimKind

/-- `TranslationModel.__init__` (interfaces.py lines 223-234).  Line 224 forwards the
three positional arguments `(ent_emb_dim, n_entities, n_relations)` to
`Model.__init__`, which accepts only `(n_entities, n_relations)`, so the call raises
`TypeError` before any attribute of the translational state is assigned.  The rest of
the body is translated for completeness; even it would fail on line 226, because
`self.ent_emb_dim` is never assigned anywhere in the class hierarchy. -/
def TranslationModel_init (ent_emb_dim n_entities n_relations : ℤ)
    (dissimilarity_type : Option String) : Except String TranslationModelState := do
  let base ← Model_init [ent_emb_dim, n_entities, n_relations]
  let emb_dim ← (Except.error
    "AttributeError: TranslationModel object has no attribute ent_emb_dim" :
      Except String ℤ)
  let entity_embeddings := init_embedding base.n_ent emb_dim
  if dissimilarity_type ∈ ([some "L1", some "L2", none] : List (Option String)) then
    let dissimilarity : Option DissimKind :=
      if dissimilarity_type = some "L1" then some .L1
      else if dissimilarity_type = some "L2" then some .L2
      else none
    return ⟨base, entity_embeddings, dissimilarity⟩
  else
    .error "AssertionError"

/-- Every call of the translational constructor raises the arity `TypeError` coming
from `super().__init__(ent_emb_dim, n_entities, n_relations)`. -/
theorem TranslationModel_init_eq_error (ent_emb_dim n_entities n_relations : ℤ)
    (dissimilarity_type : Option String) :
    TranslationModel_init ent_emb_dim n_entities n_relations dissimilarity_type =
      .error "TypeError: wrong number of arguments for Model.__init__" := rfl

end Construction

section Claims

/-- C1: for every batch and every sample `i`, the translational `compute_ranks`
returns `1 ≤ raw_rank i ≤ n_entities` and `1 ≤ filtered_rank i ≤ raw_rank i`.  For the
bilinear variant the claim fails: `BilinearModel.compute_ranks` raises `TypeError`
instead of returning ranks, evaluated here at a concrete batch. -/
theorem claim_C1 :
    (∀ (α : Type) [LinearOrderedCommRing α], ∀ (B d n : ℕ)
      (dissimilarity :
        (Fin B → Fin d → Fin n → α) → (Fin B → Fin d → Fin n → α) → (Fin B → Fin n → α))
      (proj_e_emb : Fin B → Fin d → α) (proj_candidates : Fin B → Fin d → Fin n → α)
      (r_emb : Fin B → Fin d → α) (e_idx : Fin B → Fin n) (r_idx : Fin B → ℕ)
      (true_idx : Fin B → Fin n) (dictionary : Fin n × ℕ → Option (Finset (Fin n)))
      (heads : ℤ) (i : Fin B),
      1 ≤ (tm_compute_ranks dissimilarity proj_e_emb proj_candidates r_emb e_idx r_idx
            true_idx dictionary heads).1 i ∧
        (tm_compute_ranks dissimilarity proj_e_emb proj_candidates r_emb e_idx r_idx
            true_idx dictionary heads).1 i ≤ n ∧
        1 ≤ (tm_compute_ranks dissimilarity proj_e_emb proj_candidates r_emb e_idx r_idx
            true_idx dictionary heads).2 i ∧
        (tm_compute_ranks dissimilarity proj_e_emb proj_candidates r_emb e_idx r_idx
            true_idx dictionary heads).2 i ≤
          (tm_compute_ranks dissimilarity proj_e_emb proj_candidates r_emb e_idx r_idx
            true_idx dictionary heads).1 i) ∧
    bm_compute_ranks (fun (_ : Fin 1) (_ : Fin 1) => (1 : ℤ)) (fun _ _ _ => 1)
        (fun _ _ _ => 1) (fun _ => 0) (fun _ => 0) (fun _ => (0 : Fin 2))
        (fun _ => none) 1 =
      Except.error "TypeError: torch.Size object cannot be interpreted as an integer" := by
  constructor
  · intro α _ B d n dissimilarity proj_e_emb proj_candidates r_emb e_idx r_idx
      true_idx dictionary heads i
    refine ⟨?_, ?_, ?_, ?_⟩
    · simp only [tm_compute_ranks_fst]
      exact get_rank_one_le _ _
    · simp only [tm_compute_ranks_fst]
      exact get_rank_le _ _
    · simp only [tm_compute_ranks_snd]
      exact get_rank_one_le _ _
    · simp only [tm_compute_ranks_fst, tm_compute_ranks_snd]
      exact filt_rank_le_rank _ _ _ _ _ _
  · exact bm_compute_ranks_eq_error _ _ _ _ _ _ _ _

/-- C6: the batched bilinear `compute_product` agrees with the explicit per-sample
product `h^t R t` in all three shape regimes, and the tail-candidate regime with a
single candidate agrees with the vector-vector regime. -/
theorem claim_C6 :
    ∀ (α : Type) [LinearOrderedCommRing α], ∀ (B d n : ℕ)
      (hv tv : Fin B → Fin d → α) (tc hc : Fin B → Fin n → Fin d → α)
      (r : Fin B → Fin d → Fin d → α),
      (compute_product (n := n) (.vec hv) (.vec tv) r =
        .ok (.scal fun i => hRt (hv i) (tv i) (r i))) ∧
      (compute_product (.vec hv) (.cand tc) r =
        .ok (.cands fun i j => hRt (hv i) (tc i j) (r i))) ∧
      (compute_product (.cand hc) (.vec tv) r =
        .ok (.cands fun i j => hRt (hc i j) (tv i) (r i))) ∧
      (compute_product (.vec hv) (.cand fun i (_ : Fin 1) => tv i) r =
        .ok (.cands fun i (_ : Fin 1) => hRt (hv i) (tv i) (r i))) := by
  intro α _ B d n hv tv tc hc r
  exact ⟨compute_product_vec_vec hv tv r, compute_product_vec_cand hv tc r,
    compute_product_cand_vec hc tv r, compute_product_vec_cand hv (fun i _ => tv i) r⟩

/-- C8: the claim fails on the code: even the valid dissimilarity kind `L1` is not
accepted at construction, because `TranslationModel.__init__` raises the arity
`TypeError` from `super().__init__(ent_emb_dim, n_entities, n_relations)` before it
reaches the membership assertion on line 228. -/
theorem claim_C8 :
    TranslationModel_init 100 40943 18 (some "L1") =
      Except.error "TypeError: wrong number of arguments for Model.__init__" :=
  TranslationModel_init_eq_error 100 40943 18 (some "L1")

/-- C9: every call of `TranslationModel.__init__` raises `TypeError` from forwarding
three positional arguments to the two-argument `Model.__init__`, before any
translational state is initialized, so no instance of the translational family is
reachable through this constructor. -/
theorem claim_C9 :
    ∀ (ent_emb_dim n_entities n_relations : ℤ) (dissimilarity_type : Option String),
      TranslationModel_init ent_emb_dim n_entities n_relations dissimilarity_type =
        Except.error "TypeError: wrong number of arguments for Model.__init__" :=
  fun a b c dt => TranslationModel_init_eq_error a b c dt

/-- C10: `BilinearModel.compute_ranks` binds `current_batch_size` to the size tuple
`r_idx.shape` and passes that tuple as the bound of the per-sample filtering loop, so
every call raises `TypeError` there and the bilinear variant never produces raw or
filtered ranks. -/
theorem claim_C10 :
    ∀ (α : Type) [LinearOrderedCommRing α], ∀ (B d n : ℕ) (e_emb : Fin B → Fin d → α)
      (candidates : Fin B → Fin n → Fin d → α) (r : Fin B → Fin d → Fin d → α)
      (e_idx : Fin B → Fin n) (r_idx : Fin B → ℕ) (true_idx : Fin B → Fin n)
      (dictionary : Fin n × ℕ → Option (Finset (Fin n))) (heads : ℤ),
      bm_compute_ranks e_emb candidates r e_idx r_idx true_idx dictionary heads =
        Except.error "TypeError: torch.Size object cannot be interpreted as an integer" := by
  intro α _ B d n e_emb candidates r e_idx r_idx true_idx dictionary heads
  exact bm_compute_ranks_eq_error e_emb candidates r e_idx r_idx true_idx dictionary heads

end Claims

/-- C2: the translational `compute_ranks` returns `raw_rank i = 1 +` the number of
candidates with strictly lower dissimilarity (strictly higher score) than the true
candidate, the true candidate never counting against itself: when it is the unique
most plausible candidate the raw rank is 1.  For the bilinear variant the claim fails:
its `compute_ranks` raises `TypeError` instead of returning ranks, evaluated here at a
concrete batch. -/
theorem claim_C2 :
    (∀ (α : Type) [LinearOrderedCommRing α], ∀ (B d n : ℕ)
      (dissimilarity :
        (Fin B → Fin d → Fin n → α) → (Fin B → Fin d → Fin n → α) → (Fin B → Fin n → α))
      (proj_e_emb : Fin B → Fin d → α) (proj_candidates : Fin B → Fin d → Fin n → α)
      (r_emb : Fin B → Fin d → α) (e_idx : Fin B → Fin n) (r_idx : Fin B → ℕ)
      (true_idx : Fin B → Fin n) (dictionary : Fin n × ℕ → Option (Finset (Fin n)))
      (heads : ℤ) (i : Fin B),
      ((tm_compute_ranks dissimilarity proj_e_emb proj_candidates r_emb e_idx r_idx
          true_idx dictionary heads).1 i =
        1 + (Finset.univ.filter fun j =>
          tm_dissimilarities dissimilarity proj_e_emb proj_candidates r_emb heads i j <
            tm_dissimilarities dissimilarity proj_e_emb proj_candidates r_emb heads i
              (true_idx i)).card) ∧
      ((∀ j, j ≠ true_idx i →
          tm_dissimilarities dissimilarity proj_e_emb proj_candidates r_emb heads i
              (true_idx i) <
            tm_dissimilarities dissimilarity proj_e_emb proj_candidates r_emb heads i j) →
        (tm_compute_ranks dissimilarity proj_e_emb proj_candidates r_emb e_idx r_idx
          true_idx dictionary heads).1 i = 1)) ∧
    bm_compute_ranks (fun (_ : Fin 2) (_ : Fin 1) => (0 : ℤ)) (fun _ _ _ => 1)
        (fun _ _ _ => 2) (fun _ => 0) (fun _ => 1) (fun _ => (1 : Fin 2))
        (fun _ => none) (-1) =
      Except.error "TypeError: torch.Size object cannot be interpreted as an integer" := by
  constructor
  · intro α _ B d n dissimilarity proj_e_emb proj_candidates r_emb e_idx r_idx
      true_idx dictionary heads i
    constructor
    · exact tm_raw_rank_eq dissimilarity proj_e_emb proj_candidates r_emb e_idx r_idx
        true_idx dictionary heads i
    · intro hbest
      rw [tm_raw_rank_eq dissimilarity proj_e_emb proj_candidates r_emb e_idx r_idx
        true_idx dictionary heads i]
      have hempty : (Finset.univ.filter fun j =>
          tm_dissimilarities dissimilarity proj_e_emb proj_candidates r_emb heads i j <
            tm_dissimilarities dissimilarity proj_e_emb proj_candidates r_emb heads i
              (true_idx i)) = ∅ := by
        apply Finset.filter_eq_empty_iff.mpr
        intro j _
        by_cases hj : j = true_idx i
        · rw [hj]
          exact lt_irrefl _
        · intro hlt
          exact lt_asymm hlt (hbest j hj)
      rw [hempty]
      rfl
  · exact bm_compute_ranks_eq_error _ _ _ _ _ _ _ _

/-- Witness for C2: a tie-free concrete batch (one sample, three candidates, L1
dissimilarity) where the true target is the unique most plausible candidate, so the
raw rank is 1. -/
theorem claim_C2_witness :
    (tm_compute_ranks l1_dissimilarity (fun (_ : Fin 1) (_ : Fin 1) => (0 : ℤ))
        (fun _ _ j => if j = 0 then 1 else if j = 1 then 5 else 9) (fun _ _ => 1)
        (fun _ => 0) (fun _ => 0) (fun _ => (0 : Fin 3)) (fun _ => none) 1).1 0 = 1 :=
  (claim_C2.1 ℤ 1 1 3 l1_dissimilarity (fun _ _ => 0)
    (fun _ _ j => if j = 0 then 1 else if j = 1 then 5 else 9) (fun _ _ => 1)
    (fun _ => 0) (fun _ => 0) (fun _ => 0) (fun _ => none) 1 0).2 (by decide)

/-- C4: when the `(entity, relation)` key of a sample is absent from the filtering
index, the translational `compute_ranks` skips filtering for it and returns
`filtered_rank i = raw_rank i` without raising.  For the bilinear variant the claim
fails: its `compute_ranks` raises `TypeError` for every batch, evaluated here on one
with an absent key. -/
theorem claim_C4 :
    (∀ (α : Type) [LinearOrderedCommRing α], ∀ (B d n : ℕ)
      (dissimilarity :
        (Fin B → Fin d → Fin n → α) → (Fin B → Fin d → Fin n → α) → (Fin B → Fin n → α))
      (proj_e_emb : Fin B → Fin d → α) (proj_candidates : Fin B → Fin d → Fin n → α)
      (r_emb : Fin B → Fin d → α) (e_idx : Fin B → Fin n) (r_idx : Fin B → ℕ)
      (true_idx : Fin B → Fin n) (dictionary : Fin n × ℕ → Option (Finset (Fin n)))
      (heads : ℤ) (i : Fin B),
      dictionary (e_idx i, r_idx i) = none →
      (tm_compute_ranks dissimilarity proj_e_emb proj_candidates r_emb e_idx r_idx
          true_idx dictionary heads).2 i =
        (tm_compute_ranks dissimilarity proj_e_emb proj_candidates r_emb e_idx r_idx
          true_idx dictionary heads).1 i) ∧
    bm_compute_ranks (fun (_ : Fin 1) (_ : Fin 1) => (0 : ℤ)) (fun _ _ _ => 5)
        (fun _ _ _ => 1) (fun _ => 0) (fun _ => 0) (fun _ => (0 : Fin 3))
        (fun _ => none) 1 =
      Except.error "TypeError: torch.Size object cannot be interpreted as an integer" := by
  constructor
  · intro α _ B d n dissimilarity proj_e_emb proj_candidates r_emb e_idx r_idx
      true_idx dictionary heads i hdict
    exact tm_filtered_rank_eq_raw_of_none dissimilarity proj_e_emb proj_candidates
      r_emb e_idx r_idx true_idx dictionary heads i hdict
  · exact bm_compute_ranks_eq_error _ _ _ _ _ _ _ _

/-- Witness for C4: a concrete batch whose filtering index is empty, where the
filtered rank equals the raw rank. -/
theorem claim_C4_witness :
    (tm_compute_ranks l1_dissimilarity (fun (_ : Fin 1) (_ : Fin 1) => (2 : ℤ))
        (fun _ _ j => if j = 0 then 3 else 7) (fun _ _ => 1) (fun _ => 0) (fun _ => 0)
        (fun _ => (0 : Fin 2)) (fun _ => none) 1).2 0 =
      (tm_compute_ranks l1_dissimilarity (fun (_ : Fin 1) (_ : Fin 1) => (2 : ℤ))
        (fun _ _ j => if j = 0 then 3 else 7) (fun _ _ => 1) (fun _ => 0) (fun _ => 0)
        (fun _ => (0 : Fin 2)) (fun _ => none) 1).1 0 :=
  claim_C4.1 ℤ 1 1 2 l1_dissimilarity (fun _ _ => 2) (fun _ _ j => if j = 0 then 3 else 7)
    (fun _ _ => 1) (fun _ => 0) (fun _ => 0) (fun _ => 0) (fun _ => none) 1 0 rfl

/-- C3: for a sample whose key is present in the filtering index (with the spec §3
invariant), the filtered dissimilarity vector used by the translational
`compute_ranks` is the raw vector with every *other* known-true completion set to the
`Inf` sentinel, the true target keeping its raw value; consequently the raw values at
masked entries cannot influence the filtered rank.  For the bilinear variant the claim
fails: its `compute_ranks` raises `TypeError` before building filtered scores,
evaluated here at a concrete batch. -/
theorem claim_C3 :
    (∀ (α : Type) [LinearOrderedCommRing α], ∀ (B d n : ℕ)
      (dissimilarity :
        (Fin B → Fin d → Fin n → α) → (Fin B → Fin d → Fin n → α) → (Fin B → Fin n → α))
      (proj_e_emb : Fin B → Fin d → α) (proj_candidates : Fin B → Fin d → Fin n → α)
      (r_emb : Fin B → Fin d → α) (e_idx : Fin B → Fin n) (r_idx : Fin B → ℕ)
      (true_idx : Fin B → Fin n) (dictionary : Fin n × ℕ → Option (Finset (Fin n)))
      (heads : ℤ) (i : Fin B),
      (∀ s : Finset (Fin n), dictionary (e_idx i, r_idx i) = some s → true_idx i ∈ s →
        ∀ j, filt_dissimilarities
            (tm_dissimilarities dissimilarity proj_e_emb proj_candidates r_emb heads)
            dictionary e_idx r_idx true_idx i j =
          if j ∈ s.erase (true_idx i) then ⊤
          else WithTop.some (tm_dissimilarities dissimilarity proj_e_emb
            proj_candidates r_emb heads i j)) ∧
      filt_dissimilarities
          (tm_dissimilarities dissimilarity proj_e_emb proj_candidates r_emb heads)
          dictionary e_idx r_idx true_idx i (true_idx i) =
        WithTop.some (tm_dissimilarities dissimilarity proj_e_emb proj_candidates
          r_emb heads i (true_idx i))) ∧
    (∀ (α : Type) [LinearOrderedCommRing α], ∀ (B n : ℕ)
      (dmat dmat2 : Fin B → Fin n → α)
      (dictionary : Fin n × ℕ → Option (Finset (Fin n)))
      (e_idx : Fin B → Fin n) (r_idx : Fin B → ℕ) (true_idx : Fin B → Fin n) (i : Fin B),
      (∀ j, j ∉ (get_true_targets dictionary e_idx r_idx true_idx i).getD ∅ →
        dmat i j = dmat2 i j) →
      get_rank
          (fun j => neg_ext (filt_dissimilarities dmat dictionary e_idx r_idx true_idx i j))
          (true_idx i) =
        get_rank
          (fun j => neg_ext (filt_dissimilarities dmat2 dictionary e_idx r_idx true_idx i j))
          (true_idx i)) ∧
    bm_compute_ranks (fun (_ : Fin 1) (_ : Fin 2) => (3 : ℤ)) (fun _ _ _ => 1)
        (fun _ _ _ => 0) (fun _ => 0) (fun _ => 2) (fun _ => (0 : Fin 2))
        (fun _ => some ({0} : Finset (Fin 2))) 1 =
      Except.error "TypeError: torch.Size object cannot be interpreted as an integer" := by
  refine ⟨?_, ?_, ?_⟩
  · intro α _ B d n dissimilarity proj_e_emb proj_candidates r_emb e_idx r_idx
      true_idx dictionary heads i
    constructor
    · intro s hdict hmem j
      exact tm_filt_eq_masked_copy
        (tm_dissimilarities dissimilarity proj_e_emb proj_candidates r_emb heads)
        dictionary e_idx r_idx true_idx i s hdict hmem j
    · exact filt_dissimilarities_true_eq
        (tm_dissimilarities dissimilarity proj_e_emb proj_candidates r_emb heads)
        dictionary e_idx r_idx true_idx i
  · intro α _ B n dmat dmat2 dictionary e_idx r_idx true_idx i hagree
    exact tm_filtered_rank_invariant dmat dmat2 dictionary e_idx r_idx true_idx i hagree
  · exact bm_compute_ranks_eq_error _ _ _ _ _ _ _ _

/-- Witness for C3: a concrete sample with key `(0, 0)` mapping to the completion set
containing the true target 0 and the competitor 1; the competitor's entry is masked
with the sentinel while candidate 2 keeps its raw value, and changing the
dissimilarities at the masked entry alone leaves the filtered rank unchanged. -/
theorem claim_C3_witness :
    (filt_dissimilarities
        (tm_dissimilarities l1_dissimilarity (fun (_ : Fin 1) (_ : Fin 1) => (0 : ℤ))
          (fun _ _ j => if j = 0 then 1 else if j = 1 then 2 else 4) (fun _ _ => 1) 1)
        (fun p => if p.1 = 0 ∧ p.2 = 0 then some ({0, 1} : Finset (Fin 3)) else none)
        (fun _ => 0) (fun _ => 0) (fun _ => (0 : Fin 3)) 0 1 =
      if (1 : Fin 3) ∈ ({0, 1} : Finset (Fin 3)).erase 0 then ⊤
      else WithTop.some (tm_dissimilarities l1_dissimilarity
          (fun (_ : Fin 1) (_ : Fin 1) => (0 : ℤ))
          (fun _ _ (j : Fin 3) => if j = 0 then 1 else if j = 1 then 2 else 4)
          (fun _ _ => 1) 1 0 1)) ∧
    get_rank
        (fun j => neg_ext (filt_dissimilarities
          (fun (_ : Fin 1) (j : Fin 3) => if j = 1 then (100 : ℤ) else j.val)
          (fun p => if p.1 = 0 ∧ p.2 = 0 then some ({0, 1} : Finset (Fin 3)) else none)
          (fun _ => 0) (fun _ => 0) (fun _ => (0 : Fin 3)) 0 j)) 0 =
      get_rank
        (fun j => neg_ext (filt_dissimilarities
          (fun (_ : Fin 1) (j : Fin 3) => if j = 1 then (-50 : ℤ) else j.val)
          (fun p => if p.1 = 0 ∧ p.2 = 0 then some ({0, 1} : Finset (Fin 3)) else none)
          (fun _ => 0) (fun _ => 0) (fun _ => (0 : Fin 3)) 0 j)) 0 :=
  ⟨(claim_C3.1 ℤ 1 1 3 l1_dissimilarity (fun _ _ => 0)
      (fun _ _ j => if j = 0 then 1 else if j = 1 then 2 else 4) (fun _ _ => 1)
      (fun _ => 0) (fun _ => 0) (fun _ => 0)
      (fun p => if p.1 = 0 ∧ p.2 = 0 then some ({0, 1} : Finset (Fin 3)) else none) 1
      0).1 ({0, 1} : Finset (Fin 3)) (by decide) (by decide) 1,
   claim_C3.2.1 ℤ 1 3 (fun _ j => if j = 1 then (100 : ℤ) else j.val)
      (fun _ j => if j = 1 then (-50 : ℤ) else j.val)
      (fun p => if p.1 = 0 ∧ p.2 = 0 then some ({0, 1} : Finset (Fin 3)) else none)
      (fun _ => 0) (fun _ => 0) (fun _ => 0) 0 (by decide)⟩

/-- Unfolding of the evaluator: the helper result is destructured once, and the two
`compute_ranks` calls receive exactly the arguments wired on interfaces.py lines
184-195. -/
theorem evaluate_candidates_unfold {α : Type} [LinearOrderedCommRing α] {B d n : ℕ}
    (evaluation_helper : (Fin B → Fin n) → (Fin B → Fin n) → (Fin B → ℕ) →
      (Fin B → Fin d → α) × (Fin B → Fin d → α) × (Fin B → Fin d → Fin n → α) ×
        (Fin B → Fin d → α))
    (compute_ranks : (Fin B → Fin d → α) → (Fin B → Fin d → Fin n → α) →
      (Fin B → Fin d → α) → (Fin B → Fin n) → (Fin B → ℕ) → (Fin B → Fin n) →
      (Fin n × ℕ → Option (Finset (Fin n))) → ℤ → (Fin B → ℕ) × (Fin B → ℕ))
    (h_idx t_idx : Fin B → Fin n) (r_idx : Fin B → ℕ) (kg : KGIndex n) :
    evaluate_candidates evaluation_helper compute_ranks h_idx t_idx r_idx kg =
      ((compute_ranks (evaluation_helper h_idx t_idx r_idx).1
          (evaluation_helper h_idx t_idx r_idx).2.2.1
          (evaluation_helper h_idx t_idx r_idx).2.2.2 h_idx r_idx t_idx
          kg.dict_of_tails 1).1,
        (compute_ranks (evaluation_helper h_idx t_idx r_idx).1
          (evaluation_helper h_idx t_idx r_idx).2.2.1
          (evaluation_helper h_idx t_idx r_idx).2.2.2 h_idx r_idx t_idx
          kg.dict_of_tails 1).2,
        (compute_ranks (evaluation_helper h_idx t_idx r_idx).2.1
          (evaluation_helper h_idx t_idx r_idx).2.2.1
          (evaluation_helper h_idx t_idx r_idx).2.2.2 t_idx r_idx h_idx
          kg.dict_of_heads (-1)).1,
        (compute_ranks (evaluation_helper h_idx t_idx r_idx).2.1
          (evaluation_helper h_idx t_idx r_idx).2.2.1
          (evaluation_helper h_idx t_idx r_idx).2.2.2 t_idx r_idx h_idx
          kg.dict_of_heads (-1)).2) := by
  rcases hE : evaluation_helper h_idx t_idx r_idx with ⟨ph, pt, cand, re⟩
  unfold evaluate_candidates
  rw [hE]

/-- C5: with the translational `compute_ranks` plugged in, the evaluator destructures
the helper output once, calls `compute_ranks` twice on the same candidate tensor and
relation embeddings — first with the head entities, the tails dictionary and role `+1`,
then with the tail entities, the heads dictionary and role `-1` — and returns the four
rank vectors `(rank_tail, filtered_rank_tail, rank_head, filtered_rank_head)`, each
entry lying in `[1, n_entities]`. -/
theorem claim_C5 :
    ∀ (α : Type) [LinearOrderedCommRing α], ∀ (B d n : ℕ)
      (evaluation_helper : (Fin B → Fin n) → (Fin B → Fin n) → (Fin B → ℕ) →
        (Fin B → Fin d → α) × (Fin B → Fin d → α) × (Fin B → Fin d → Fin n → α) ×
          (Fin B → Fin d → α))
      (dissimilarity :
        (Fin B → Fin d → Fin n → α) → (Fin B → Fin d → Fin n → α) → (Fin B → Fin n → α))
      (h_idx t_idx : Fin B → Fin n) (r_idx : Fin B → ℕ) (kg : KGIndex n),
      (evaluate_candidates evaluation_helper (tm_compute_ranks dissimilarity) h_idx
          t_idx r_idx kg =
        ((tm_compute_ranks dissimilarity (evaluation_helper h_idx t_idx r_idx).1
            (evaluation_helper h_idx t_idx r_idx).2.2.1
            (evaluation_helper h_idx t_idx r_idx).2.2.2 h_idx r_idx t_idx
            kg.dict_of_tails 1).1,
          (tm_compute_ranks dissimilarity (evaluation_helper h_idx t_idx r_idx).1
            (evaluation_helper h_idx t_idx r_idx).2.2.1
            (evaluation_helper h_idx t_idx r_idx).2.2.2 h_idx r_idx t_idx
            kg.dict_of_tails 1).2,
          (tm_compute_ranks dissimilarity (evaluation_helper h_idx t_idx r_idx).2.1
            (evaluation_helper h_idx t_idx r_idx).2.2.1
            (evaluation_helper h_idx t_idx r_idx).2.2.2 t_idx r_idx h_idx
            kg.dict_of_heads (-1)).1,
          (tm_compute_ranks dissimilarity (evaluation_helper h_idx t_idx r_idx).2.1
            (evaluation_helper h_idx t_idx r_idx).2.2.1
            (evaluation_helper h_idx t_idx r_idx).2.2.2 t_idx r_idx h_idx
            kg.dict_of_heads (-1)).2)) ∧
      ∀ i : Fin B,
        (1 ≤ (evaluate_candidates evaluation_helper (tm_compute_ranks dissimilarity)
            h_idx t_idx r_idx kg).1 i ∧
          (evaluate_candidates evaluation_helper (tm_compute_ranks dissimilarity)
            h_idx t_idx r_idx kg).1 i ≤ n) ∧
        (1 ≤ (evaluate_candidates evaluation_helper (tm_compute_ranks dissimilarity)
            h_idx t_idx r_idx kg).2.1 i ∧
          (evaluate_candidates evaluation_helper (tm_compute_ranks dissimilarity)
            h_idx t_idx r_idx kg).2.1 i ≤ n) ∧
        (1 ≤ (evaluate_candidates evaluation_helper (tm_compute_ranks dissimilarity)
            h_idx t_idx r_idx kg).2.2.1 i ∧
          (evaluate_candidates evaluation_helper (tm_compute_ranks dissimilarity)
            h_idx t_idx r_idx kg).2.2.1 i ≤ n) ∧
        (1 ≤ (evaluate_candidates evaluation_helper (tm_compute_ranks dissimilarity)
            h_idx t_idx r_idx kg).2.2.2 i ∧
          (evaluate_candidates evaluation_helper (tm_compute_ranks dissimilarity)
            h_idx t_idx r_idx kg).2.2.2 i ≤ n) := by
  intro α _ B d n evaluation_helper dissimilarity h_idx t_idx r_idx kg
  refine ⟨evaluate_candidates_unfold evaluation_helper (tm_compute_ranks dissimilarity)
    h_idx t_idx r_idx kg, ?_⟩
  intro i
  rw [evaluate_candidates_unfold evaluation_helper (tm_compute_ranks dissimilarity)
    h_idx t_idx r_idx kg]
  refine ⟨⟨?_, ?_⟩, ⟨?_, ?_⟩, ⟨?_, ?_⟩, ⟨?_, ?_⟩⟩ <;>
    simp only [tm_compute_ranks_fst, tm_compute_ranks_snd] <;>
    first
      | exact get_rank_one_le _ _
      | exact get_rank_le _ _

/-- C7: `recover_candidates` broadcasts the transposed entity table across the batch —
shape `(b_size, ent_emb_dim, n_ent)`, every batch slice equal to the transposed table —
and `get_head_tail_candidates` broadcasts the table itself — `b_size` slices, each
equal to the entity embedding table. -/
theorem claim_C7 :
    ∀ (α : Type) [LinearOrderedCommRing α], ∀ (ent_emb : List (List α))
      (d n b_size : ℕ) (h_idx t_idx : List ℕ),
      ent_emb.length = n →
      (∀ row ∈ ent_emb, row.length = d) →
      (recover_candidates ent_emb d b_size).length = b_size ∧
      (∀ slice ∈ recover_candidates ent_emb d b_size,
        slice.length = d ∧ (∀ col ∈ slice, col.length = n) ∧
        ∀ k j : ℕ, k < d → j < n →
          (slice.getD k []).getD j 0 = (ent_emb.getD j []).getD k 0) ∧
      (get_head_tail_candidates ent_emb h_idx t_idx).2.2.length = h_idx.length ∧
      ∀ slice ∈ (get_head_tail_candidates ent_emb h_idx t_idx).2.2, slice = ent_emb := by
  intro α _ ent_emb d n b_size h_idx t_idx hlen hrect
  refine ⟨?_, ?_, ?_, ?_⟩
  · unfold recover_candidates
    simp
  · intro slice hslice
    unfold recover_candidates at hslice
    have hs := List.eq_of_mem_replicate hslice
    subst hs
    refine ⟨transpose_0_1_length ent_emb d, ?_, ?_⟩
    · intro col hcol
      rw [transpose_0_1_row_length ent_emb d col hcol, hlen]
    · intro k j hk hj
      exact transpose_0_1_entry ent_emb d k j hk (by omega)
  · unfold get_head_tail_candidates
    simp
  · intro slice hslice
    simp only [get_head_tail_candidates] at hslice
    exact List.eq_of_mem_replicate hslice

/-- Witness for C7: a concrete 3-entity, 2-dimensional table broadcast over a batch of
four (translational layout) and over a batch of two (bilinear layout). -/
theorem claim_C7_witness :
    (recover_candidates [[(1 : ℤ), 2], [3, 4], [5, 6]] 2 4).length = 4 ∧
    ∀ slice ∈ (get_head_tail_candidates [[(1 : ℤ), 2], [3, 4], [5, 6]] [0, 2] [1, 1]).2.2,
      slice = [[(1 : ℤ), 2], [3, 4], [5, 6]] :=
  ⟨(claim_C7 ℤ [[1, 2], [3, 4], [5, 6]] 2 3 4 [0, 2] [1, 1] (by decide) (by decide)).1,
   (claim_C7 ℤ [[1, 2], [3, 4], [5, 6]] 2 3 4 [0, 2] [1, 1] (by decide)
     (by decide)).2.2.2⟩
